import Mathlib

/-!
Verification of the report-assembly and year-eligibility engine.

Shallow embedding, in Lean 4, of the pure core of the repository:
`utils/year_filter.py`, `utils/refinement.py`, `utils/content_generator.py`
and the TOC hierarchy functions of `app.py`.  Python strings are modelled as
Lean `String` (a packed `List Char` of unicode code points, matching Python's
code-point semantics for indexing, length, ordering and containment).
Python `int` is modelled as `Int` (`Nat` where the value is a count).
Regular-expression matching used by the source is limited to patterns of the
shape "digit-run(s) followed by fixed literals with optional whitespace"; for
such patterns Python's leftmost / non-overlapping match semantics is
reproduced by a fuel-indexed scanner (the fuel is the remaining text length,
an upper bound on the number of scan steps).  `\d` is modelled as the ASCII
digits `0`-`9` and `\s` as `Char.isWhitespace`; the source never feeds the
exotic unicode digit / whitespace characters where the two differ.
External collaborators (the OpenAI call, the vector store, tiktoken) are
modelled as opaque deterministic function parameters, as the spec directs.
-/

/-! ## Generic character / string helpers -/

/-- ASCII digit test, the model of `\d` (and of `str.isdigit` on the inputs
the source handles). -/
def isAsciiDigit (c : Char) : Bool := 48 ≤ c.toNat && c.toNat ≤ 57

/-- Numeric value of a run of ASCII digits (model of Python `int` on a
digit-only string). -/
def digitsVal (ds : List Char) : Nat := ds.foldl (fun a c => a * 10 + (c.toNat - 48)) 0

/-- `isPrefixChars needle hay`: does `hay` start with `needle`? -/
def isPrefixChars : List Char → List Char → Bool
  | [], _ => true
  | _ :: _, [] => false
  | a :: as, b :: bs => a = b && isPrefixChars as bs

/-- `containsSub hay needle`: does `needle` occur contiguously in `hay`?
Model of Python's `needle in hay` for strings. -/
def containsSub : List Char → List Char → Bool
  | [], needle => needle.isEmpty
  | h :: t, needle => isPrefixChars needle (h :: t) || containsSub t needle

/-- Python `needle in hay` on strings. -/
def pyIn (needle hay : String) : Bool := containsSub hay.data needle.data

/-- Python `str.strip()`: drop leading and trailing whitespace. -/
def pyStrip (cs : List Char) : List Char :=
  ((cs.dropWhile Char.isWhitespace).reverse.dropWhile Char.isWhitespace).reverse

/-- `pyStrip` on packed strings. -/
def pyStripStr (s : String) : String := String.mk (pyStrip s.data)

/-- Python `str.split(sep)` for a one-character separator (keeps empty
pieces, as Python does). -/
def splitOnCharAux (sep : Char) : List Char → List Char → List (List Char)
  | [], acc => [acc.reverse]
  | c :: cs, acc =>
    if c = sep then acc.reverse :: splitOnCharAux sep cs []
    else splitOnCharAux sep cs (c :: acc)

/-- Python `str.split(sep)` for a one-character separator. -/
def splitOnChar (sep : Char) (cs : List Char) : List (List Char) :=
  splitOnCharAux sep cs []

/-- Python `sep.join(parts)`. -/
def joinSep (sep : String) : List String → String
  | [] => ""
  | [x] => x
  | x :: y :: xs => x ++ sep ++ joinSep sep (y :: xs)

/-- Python `str.split('.', 1)`: split on the first occurrence only. -/
def splitFirstDot : List Char → Option (List Char × List Char)
  | [] => none
  | c :: cs => if c = '.' then some ([], cs)
    else match splitFirstDot cs with
      | none => none
      | some (a, b) => some (c :: a, b)

/-! ## `utils/year_filter.py` -/

/-- One regex-pattern matcher: given the text at the current scan position,
either fail or return the captured year together with the unconsumed rest. -/
abbrev YearMatcher := List Char → Option (Nat × List Char)

/-- Matcher for `(\d+)차년도` (and, with `litAfter` varied, for the other
"digits then fixed literal" variants): a maximal nonempty ASCII digit run
immediately followed by the literal. A shorter digit run can never succeed
where the maximal one fails, because the character after a shorter run is a
digit, not the literal's first character — so Python's backtracking is
irrelevant here. -/
def matchDigitsThen (litAfter : List Char) (cs : List Char) : Option (Nat × List Char) :=
  let ds := cs.takeWhile isAsciiDigit
  let rest := cs.dropWhile isAsciiDigit
  if ds.isEmpty then none
  else if isPrefixChars litAfter rest then some (digitsVal ds, rest.drop litAfter.length)
  else none

/-- Matcher for `(\d+)차\s*년도`. -/
def matchDigitsChaWsYeondo (cs : List Char) : Option (Nat × List Char) :=
  let ds := cs.takeWhile isAsciiDigit
  let rest := cs.dropWhile isAsciiDigit
  if ds.isEmpty then none
  else
    match rest with
    | '차' :: r2 =>
      let r3 := r2.dropWhile Char.isWhitespace
      if isPrefixChars ['년', '도'] r3 then some (digitsVal ds, r3.drop 2) else none
    | _ => none

/-- `re.findall(pattern, text)` for the year patterns: scan left to right,
at each position try the matcher; on success record the capture and resume
after the match (non-overlapping), on failure advance one character.
`fuel` bounds the number of steps (each step consumes at least one
character, so `text.length` steps always suffice). -/
def scanPat (m : YearMatcher) : Nat → List Char → List Nat
  | 0, _ => []
  | _ + 1, [] => []
  | fuel + 1, c :: cs =>
    match m (c :: cs) with
    | some (n, rest) => n :: scanPat m fuel rest
    | none => scanPat m fuel cs

/-- All captures of one pattern over the whole text. -/
def findallPat (m : YearMatcher) (cs : List Char) : List Nat := scanPat m cs.length cs

/-- Insert into a strictly-ascending list, ignoring duplicates (used to model
Python's `sorted(list(set(...)))`). -/
def insertYear (x : Int) : List Int → List Int
  | [] => [x]
  | y :: ys => if x < y then x :: y :: ys else if x = y then y :: ys else y :: insertYear x ys

/-- `sorted(list(set(l)))`. -/
def sortedYearSet (l : List Int) : List Int := l.foldl (fun acc x => insertYear x acc) []

/-- `extract_year_from_text` (`utils/year_filter.py:47-77`): collect the
captures of the four patterns `(\d+)차년도`, `(\d+)차\s*년도`, `(\d+)년차`,
`(\d+)차`, keep those in the range 1..10, and return them as a sorted
duplicate-free list.  (The source's `int()` cannot fail on a digit-run
capture, so the `except ValueError` branch is dead.) -/
def extract_year_from_text (text : String) : List Int :=
  let cs := text.data
  let found :=
    findallPat (matchDigitsThen ['차', '년', '도']) cs ++
    findallPat matchDigitsChaWsYeondo cs ++
    findallPat (matchDigitsThen ['년', '차']) cs ++
    findallPat (matchDigitsThen ['차']) cs
  sortedYearSet ((found.map Int.ofNat).filter (fun y => 1 ≤ y && y ≤ 10))

/-- The `is_next_year_section` computation of `should_include_content`
(`utils/year_filter.py:107-112`): bidirectional substring containment
between the section title and any registered next-year section title. -/
def is_next_year_section_flag (section_title : String) (matching_sections : List String) : Bool :=
  matching_sections.any (fun ms => pyIn ms section_title || pyIn section_title ms)

/-- The year-decision loop of `should_include_content`
(`utils/year_filter.py:114-137`), including the final `return True`
fall-through ("안전장치"). -/
def year_decision (current_year : Int) (has_next_year_section : Bool)
    (is_next : Bool) : List Int → Bool
  | [] => true
  | year :: rest =>
    if year < current_year then false
    else if year = current_year then true
    else if year = current_year + 1 then has_next_year_section && is_next
    else if year > current_year + 1 then false
    else year_decision current_year has_next_year_section is_next rest

/-- `should_include_content` (`utils/year_filter.py:80-137`). -/
def should_include_content (content_text : String) (current_year : Int)
    (section_title : String) (has_next_year_section : Bool)
    (matching_sections : List String) : Bool :=
  let content_years := extract_year_from_text content_text
  if content_years.isEmpty then true
  else
    year_decision current_year has_next_year_section
      (is_next_year_section_flag section_title matching_sections) content_years

/-! ## Basic lemmas about the year filter -/

/-- Every branch of the decision loop returns on the first year examined:
the four guards cover all integers, so the recursive fall-through is
unreachable for a nonempty list. -/
theorem year_decision_cons (c : Int) (hn inx : Bool) (y : Int) (rest : List Int) :
    year_decision c hn inx (y :: rest) = year_decision c hn inx [y] := by
  show (if y < c then false else if y = c then true else if y = c + 1 then hn && inx
      else if y > c + 1 then false else year_decision c hn inx rest) =
    (if y < c then false else if y = c then true else if y = c + 1 then hn && inx
      else if y > c + 1 then false else year_decision c hn inx [])
  split_ifs with h1 h2 h3 h4 <;> first | rfl | omega

theorem mem_insertYear {z x : Int} {l : List Int} (h : z ∈ insertYear x l) :
    z = x ∨ z ∈ l := by
  induction l with
  | nil =>
    simp only [insertYear, List.mem_singleton] at h
    exact Or.inl h
  | cons y ys ih =>
    simp only [insertYear] at h
    by_cases h1 : x < y
    · rw [if_pos h1] at h
      rcases List.mem_cons.mp h with h2 | h2
      · exact Or.inl h2
      · exact Or.inr h2
    · rw [if_neg h1] at h
      by_cases h2 : x = y
      · rw [if_pos h2] at h
        exact Or.inr h
      · rw [if_neg h2] at h
        rcases List.mem_cons.mp h with h3 | h3
        · exact Or.inr (List.mem_cons.mpr (Or.inl h3))
        · rcases ih h3 with h4 | h4
          · exact Or.inl h4
          · exact Or.inr (List.mem_cons.mpr (Or.inr h4))

theorem pairwise_insertYear {x : Int} {l : List Int}
    (h : List.Pairwise (· < ·) l) : List.Pairwise (· < ·) (insertYear x l) := by
  induction l with
  | nil => simp [insertYear]
  | cons y ys ih =>
    rcases List.pairwise_cons.mp h with ⟨hy, hys⟩
    simp only [insertYear]
    by_cases h1 : x < y
    · rw [if_pos h1]
      refine List.pairwise_cons.mpr ⟨?_, h⟩
      intro z hz
      rcases List.mem_cons.mp hz with h2 | h2
      · omega
      · exact lt_trans h1 (hy z h2)
    · rw [if_neg h1]
      by_cases h2 : x = y
      · rw [if_pos h2]
        exact h
      · rw [if_neg h2]
        refine List.pairwise_cons.mpr ⟨?_, ih hys⟩
        intro z hz
        rcases mem_insertYear hz with h3 | h3
        · omega
        · exact hy z h3

theorem pairwise_sortedYearSet (l : List Int) :
    List.Pairwise (· < ·) (sortedYearSet l) := by
  suffices h : ∀ acc, List.Pairwise (· < ·) acc →
      List.Pairwise (· < ·) (l.foldl (fun acc x => insertYear x acc) acc) by
    exact h [] (by simp)
  induction l with
  | nil => intro acc hacc; simpa using hacc
  | cons x xs ih =>
    intro acc hacc
    exact ih (insertYear x acc) (pairwise_insertYear hacc)

/-! ## Claims C1, C2, C10 -/

/-- **C2.** When exactly one year `y` is detected in the content text,
`should_include_content` returns: `false` for `y < current_year`; `true` for
`y = current_year`; for `y = current_year + 1`, `true` iff
`has_next_year_section` holds and the section title matches one of
`matching_sections` by bidirectional substring containment; `false` for
`y > current_year + 1`.  When no year is detected the result is `true`. -/
theorem C2_single_year_decision (text : String) (current_year y : Int)
    (section_title : String) (hn : Bool) (ms : List String) :
    (extract_year_from_text text = [y] →
      should_include_content text current_year section_title hn ms =
        (if y < current_year then false
         else if y = current_year then true
         else if y = current_year + 1 then
           hn && is_next_year_section_flag section_title ms
         else false)) ∧
    (extract_year_from_text text = [] →
      should_include_content text current_year section_title hn ms = true) := by
  constructor
  · intro h
    unfold should_include_content
    rw [h]
    show year_decision current_year hn (is_next_year_section_flag section_title ms) [y] = _
    show (if y < current_year then false else if y = current_year then true
        else if y = current_year + 1 then hn && is_next_year_section_flag section_title ms
        else if y > current_year + 1 then false
        else year_decision current_year hn (is_next_year_section_flag section_title ms) []) = _
    split_ifs with h1 h2 h3 h4 <;> first | rfl | omega
  · intro h
    unfold should_include_content
    rw [h]
    rfl

/-- Witness for C2 at a concrete input: the text `"2차년도 수행 내용"`
contains exactly the year 2, and with `current_year = 2` it is included. -/
theorem C2_single_year_decision_witness :
    should_include_content "2차년도 수행 내용" 2 "개요" false [] =
      (if (2 : Int) < 2 then false
       else if (2 : Int) = 2 then true
       else if (2 : Int) = 2 + 1 then false && is_next_year_section_flag "개요" []
       else false) :=
  (C2_single_year_decision "2차년도 수행 내용" 2 2 "개요" false []).1 (by decide)

/-- **C10.** With at least one detected year, the result of
`should_include_content` is fully determined by the smallest detected year:
the extracted list is strictly ascending (deduplicated, sorted), and the
decision equals the decision on the head alone. -/
theorem C10_min_year_determines (text : String) (current_year : Int)
    (section_title : String) (hn : Bool) (ms : List String) (y : Int)
    (rest : List Int) (h : extract_year_from_text text = y :: rest) :
    List.Pairwise (· < ·) (extract_year_from_text text) ∧
    should_include_content text current_year section_title hn ms =
      year_decision current_year hn
        (is_next_year_section_flag section_title ms) [y] := by
  refine ⟨by unfold extract_year_from_text; exact pairwise_sortedYearSet _, ?_⟩
  unfold should_include_content
  rw [h]
  show year_decision current_year hn (is_next_year_section_flag section_title ms) (y :: rest) = _
  exact year_decision_cons current_year hn (is_next_year_section_flag section_title ms) y rest

/-- Witness for C10 at a concrete input: `"1차년도 및 3차년도"` detects
`[1, 3]`, and the result equals the decision on the year 1 alone. -/
theorem C10_min_year_determines_witness :
    List.Pairwise (· < ·) (extract_year_from_text "1차년도 및 3차년도") ∧
    should_include_content "1차년도 및 3차년도" 2 "개요" true ["다음년도 계획"] =
      year_decision 2 true (is_next_year_section_flag "개요" ["다음년도 계획"]) [1] :=
  C10_min_year_determines "1차년도 및 3차년도" 2 "개요" true ["다음년도 계획"] 1 [3] (by decide)

/-- **C1, counterexample.** The text `"2차년도 완료 및 4차년도 계획"`
detects the two distinct years 2 and 4; with `current_year = 2` the year 4
exceeds `current_year + 1` and so fails the year rule, yet
`should_include_content` returns `true` — a single disqualifying year does
*not* veto the span, contradicting the claim. -/
theorem C1_counterexample :
    extract_year_from_text "2차년도 완료 및 4차년도 계획" = [2, 4] ∧
    (4 : Int) > 2 + 1 ∧
    should_include_content "2차년도 완료 및 4차년도 계획" 2 "개요" false [] = true := by
  refine ⟨by decide, by decide, by decide⟩

/-- **C1, amended.** With more than one distinct detected year, the result
is decided by the smallest detected year alone: the span is included iff
the smallest year passes the year rule; the other detected years never
veto it. -/
theorem C1_amended_smallest_decides (text : String) (current_year : Int)
    (section_title : String) (hn : Bool) (ms : List String) (y z : Int)
    (rest : List Int) (h : extract_year_from_text text = y :: z :: rest) :
    should_include_content text current_year section_title hn ms =
      (if y < current_year then false
       else if y = current_year then true
       else if y = current_year + 1 then
         hn && is_next_year_section_flag section_title ms
       else false) := by
  unfold should_include_content
  rw [h]
  show year_decision current_year hn (is_next_year_section_flag section_title ms)
      (y :: z :: rest) = _
  rw [year_decision_cons]
  show (if y < current_year then false else if y = current_year then true
      else if y = current_year + 1 then hn && is_next_year_section_flag section_title ms
      else if y > current_year + 1 then false
      else year_decision current_year hn (is_next_year_section_flag section_title ms) []) = _
  split_ifs with h1 h2 h3 h4 <;> first | rfl | omega

/-- Witness for the amended C1 at the counterexample input: the decision on
`"2차년도 완료 및 4차년도 계획"` equals the decision on the year 2 alone. -/
theorem C1_amended_smallest_decides_witness :
    should_include_content "2차년도 완료 및 4차년도 계획" 2 "다음년도 계획" false [] =
      (if (2 : Int) < 2 then false
       else if (2 : Int) = 2 then true
       else if (2 : Int) = 2 + 1 then
         false && is_next_year_section_flag "다음년도 계획" []
       else false) :=
  C1_amended_smallest_decides "2차년도 완료 및 4차년도 계획" 2 "다음년도 계획" false []
    2 4 [] (by decide)

/-! ## `utils/refinement.py`: report section parsing and flattening -/

/-- A `{number, title, content}` record as produced by
`parse_report_sections`. -/
structure ReportSection where
  number : String
  title : String
  content : String
deriving DecidableEq

/-- First two characters equal one of `'1.'..'5.'`
(`utils/refinement.py:123`, second disjunct of the header test). -/
def firstTwoIn15 (cs : List Char) : Bool :=
  match cs with
  | a :: b :: _ => b = '.' && (a = '1' || a = '2' || a = '3' || a = '4' || a = '5')
  | _ => false

/-- Header detection of `parse_report_sections`
(`utils/refinement.py:123`): the stripped line is nonempty and starts with a
digit, or is longer than 2 and starts with `1.`..`5.`. -/
def isHeaderLine (cs : List Char) : Bool :=
  match cs with
  | [] => false
  | c :: _ => isAsciiDigit c || (decide (cs.length > 2) && firstTwoIn15 cs)

/-- `'\n'.join(current_content).strip()`. -/
def finishContent (ls : List (List Char)) : String :=
  pyStripStr (joinSep "\n" (ls.map String.mk))

/-- State of the parsing loop of `parse_report_sections`.  Python appends
the *same* section dict once per headerish line without a dot and once when
it is finalized, and later mutates its `content` in place; all those list
entries alias the final record.  The pure model therefore keeps the current
section open together with the number of extra aliases already appended
(`aliasCnt`), and emits `aliasCnt + 1` copies of the finalized record. -/
structure ParseState where
  done : List ReportSection
  current : Option (String × String)
  aliasCnt : Nat
  content : List (List Char)

/-- The `aliasCnt + 1` aliased copies of the finalized current section. -/
def flushCurrent (cur : String × String) (aliasCnt : Nat)
    (content : List (List Char)) : List ReportSection :=
  List.replicate (aliasCnt + 1) ⟨cur.1, cur.2, finishContent content⟩

/-- One iteration of the line loop of `parse_report_sections`
(`utils/refinement.py:119-141`), on the already-stripped line. -/
def parseStep (st : ParseState) (line : List Char) : ParseState :=
  if isHeaderLine line then
    match splitFirstDot line with
    | some (numCs, titleCs) =>
      let started : ParseState :=
        { done := match st.current with
            | some cur => st.done ++ flushCurrent cur st.aliasCnt st.content
            | none => st.done
          current := some (String.mk (pyStrip numCs), String.mk (pyStrip titleCs))
          aliasCnt := 0
          content := [] }
      started
    | none =>
      match st.current with
      | some _ => { st with aliasCnt := st.aliasCnt + 1 }
      | none => st
  else
    match st.current with
    | some _ => { st with content := st.content ++ [line] }
    | none => st

/-- `parse_report_sections` (`utils/refinement.py:103-148`). -/
def parse_report_sections (report : String) : List ReportSection :=
  let lines := (splitOnChar '\n' report.data).map pyStrip
  let final := lines.foldl parseStep ⟨[], none, 0, []⟩
  match final.current with
  | some cur => final.done ++ flushCurrent cur final.aliasCnt final.content
  | none => final.done

/-- The six report parts one section contributes in `combine_sections`
(`utils/refinement.py:382-389`): header, `=`-underline of the header's
length, blank, content, blank, blank. -/
def sectionParts (s : ReportSection) : List String :=
  let header := s.number ++ ". " ++ s.title
  [header, String.mk (List.replicate header.length '='), "", s.content, "", ""]

/-- `combine_sections` (`utils/refinement.py:370-391`). -/
def combine_sections (sections : List ReportSection) : String :=
  joinSep "\n" (sections.map sectionParts).flatten

/-! ## `utils/refinement.py`: modification-request analysis -/

/-- A maximal nonempty ASCII digit run (`\d+`) with the rest. -/
def matchDigitRun (cs : List Char) : Option (List Char × List Char) :=
  let ds := cs.takeWhile isAsciiDigit
  if ds.isEmpty then none else some (ds, cs.dropWhile isAsciiDigit)

/-- `\d+(-\d+)^extra`: a dash-separated sequence of `extra + 1` digit runs,
returning the captured characters and the rest.  As with the year patterns,
greediness needs no backtracking because a digit run is followed by a
non-digit. -/
def matchSegs : Nat → List Char → Option (List Char × List Char)
  | n, cs =>
    match matchDigitRun cs with
    | none => none
    | some (ds, r) =>
      match n with
      | 0 => some (ds, r)
      | m + 1 =>
        match r with
        | '-' :: r2 =>
          match matchSegs m r2 with
          | none => none
          | some (cap, r3) => some (ds ++ '-' :: cap, r3)
        | _ => none

/-- Matcher for `(\d+(-\d+)^extra)` followed by a fixed literal (the `…번`
and `…번째` section-reference patterns of `analyze_modification_request`,
`utils/refinement.py:169-179`); the capture excludes the literal. -/
def numThenLit (extra : Nat) (lit : List Char) (cs : List Char) :
    Option (List Char × List Char) :=
  match matchSegs extra cs with
  | none => none
  | some (cap, r) =>
    if isPrefixChars lit r then some (cap, r.drop lit.length) else none

/-- Matcher for `섹션\s*(\d+(-\d+)^extra)`. -/
def sectionNumPat (extra : Nat) (cs : List Char) : Option (List Char × List Char) :=
  if isPrefixChars ['섹', '션'] cs then
    matchSegs extra ((cs.drop 2).dropWhile Char.isWhitespace)
  else none

/-- `re.search`: the capture of the leftmost match, scanning one character
at a time (`fuel` bounds the scan as in `scanPat`). -/
def searchPat (m : List Char → Option (List Char × List Char)) :
    Nat → List Char → Option (List Char)
  | 0, _ => none
  | _ + 1, [] => none
  | fuel + 1, c :: cs =>
    match m (c :: cs) with
    | some (cap, _) => some cap
    | none => searchPat m fuel cs

/-- First pattern of the ordered list that matches anywhere in the text
(`utils/refinement.py:181-186`). -/
def firstCapture : List (List Char → Option (List Char × List Char)) →
    List Char → Option String
  | [], _ => none
  | p :: ps, cs =>
    match searchPat p cs.length cs with
    | some cap => some (String.mk cap)
    | none => firstCapture ps cs

/-- The `section_patterns` cascade of `analyze_modification_request`
(`utils/refinement.py:169-186`), in source order. -/
def extractTargetSection (request : String) : Option String :=
  firstCapture
    [numThenLit 2 ['번'], numThenLit 1 ['번'], numThenLit 0 ['번'],
     numThenLit 2 ['번', '째'], numThenLit 1 ['번', '째'], numThenLit 0 ['번', '째'],
     sectionNumPat 2, sectionNumPat 1, sectionNumPat 0]
    request.data

/-- Python `str.lower()`; only ASCII letters are affected among the
characters the source feeds it (the markers compared against are Korean,
which is uncased). -/
def pyLower (s : String) : String := String.mk (s.data.map Char.toLower)

/-- `analyze_modification_request` (`utils/refinement.py:151-196`),
returning the `(request_type, target_section, details)` triple.  A captured
section number is always a nonempty digit string, so Python's truthiness
test `elif target_section:` coincides with the `Option` match. -/
def analyze_modification_request (request : String) :
    String × Option String × String :=
  if pyIn "전체" (pyLower request) || pyIn "모두" (pyLower request) ||
      pyIn "다시" (pyLower request) then
    ("regenerate_all", none, request)
  else
    match extractTargetSection request with
    | some t => ("specific_section", some t, request)
    | none =>
      if pyIn "추가" (pyLower request) || pyIn "더" (pyLower request) ||
          pyIn "보완" (pyLower request) then
        ("add_content", none, request)
      else
        ("general", none, request)

/-! ## Claims C3, C9 -/

/-- **C3, failing input.**  `parse_report_sections` does not invert
`combine_sections`: on the well-formed single-section input
`{number := "1", title := "개요", content := "본문 내용임"}` (whose content
has no header-shaped line) the parsed-back content has absorbed the header's
`=`-underline and the following blank line, so the round trip does not
reproduce the triple. -/
theorem C3_roundtrip_failing :
    parse_report_sections (combine_sections [⟨"1", "개요", "본문 내용임"⟩]) =
      [⟨"1", "개요", "=====\n\n본문 내용임"⟩] ∧
    parse_report_sections (combine_sections [⟨"1", "개요", "본문 내용임"⟩]) ≠
      [⟨"1", "개요", "본문 내용임"⟩] :=
  ⟨by decide, by decide⟩

/-- **C9.**  `analyze_modification_request` classifies by first match in the
fixed order whole-scope → section-number → additive → general, and the four
concrete requests of the claim classify as stated. -/
theorem C9_request_classification :
    (∀ r : String,
      (pyIn "전체" (pyLower r) || pyIn "모두" (pyLower r) || pyIn "다시" (pyLower r)) = true →
        (analyze_modification_request r).1 = "regenerate_all") ∧
    (∀ r t,
      (pyIn "전체" (pyLower r) || pyIn "모두" (pyLower r) || pyIn "다시" (pyLower r)) = false →
      extractTargetSection r = some t →
        analyze_modification_request r = ("specific_section", some t, r)) ∧
    (∀ r : String,
      (pyIn "전체" (pyLower r) || pyIn "모두" (pyLower r) || pyIn "다시" (pyLower r)) = false →
      extractTargetSection r = none →
      (pyIn "추가" (pyLower r) || pyIn "더" (pyLower r) || pyIn "보완" (pyLower r)) = true →
        analyze_modification_request r = ("add_content", none, r)) ∧
    (∀ r : String,
      (pyIn "전체" (pyLower r) || pyIn "모두" (pyLower r) || pyIn "다시" (pyLower r)) = false →
      extractTargetSection r = none →
      (pyIn "추가" (pyLower r) || pyIn "더" (pyLower r) || pyIn "보완" (pyLower r)) = false →
        analyze_modification_request r = ("general", none, r)) ∧
    analyze_modification_request "3번 섹션 더 자세히" =
      ("specific_section", some "3", "3번 섹션 더 자세히") ∧
    analyze_modification_request "전체 다시 생성해줘" =
      ("regenerate_all", none, "전체 다시 생성해줘") ∧
    analyze_modification_request "이미지 추가해줘" =
      ("add_content", none, "이미지 추가해줘") ∧
    analyze_modification_request "안녕하세요" = ("general", none, "안녕하세요") := by
  refine ⟨?_, ?_, ?_, ?_, by decide, by decide, by decide, by decide⟩
  · intro r h
    simp [analyze_modification_request, h]
  · intro r t h1 h2
    simp [analyze_modification_request, h1, h2]
  · intro r h1 h2 h3
    simp [analyze_modification_request, h1, h2, h3]
  · intro r h1 h2 h3
    simp [analyze_modification_request, h1, h2, h3]

/-- Witness for C9's ordered-cascade part at a concrete input. -/
theorem C9_request_classification_witness :
    (analyze_modification_request "모두 고쳐줘").1 = "regenerate_all" :=
  C9_request_classification.1 "모두 고쳐줘" (by decide)

/-! ## `utils/content_generator.py`: the report assembly loop -/

/-- A TOC node as consumed by `generate_full_report` (only the fields the
loop reads: `section.get('title','')`, `section.get('level',1)`,
`section.get('number','')`; the dict `.get` defaults are folded into total
fields). -/
structure TocItem where
  number : String
  title : String
  level : Int
deriving DecidableEq

/-- The external collaborators of the assembly loop, modelled as opaque
deterministic functions (spec §1/§6 treats them as interfaces):
`search_similar query n` returns the texts of the retrieved documents
(the `doc['text']` projection of `vector_db_manager.search_similar`);
`generate title level source_content previous_sections has_next_year_section
matching_sections` models `generate_section_content`, with the loop-invariant
`reference_style`, `technical_terms` and `current_year` arguments folded into
the closure; `count_tokens` models `count_tokens` (tiktoken, or the
`len(text) // 4` fallback); `max_token_limit` models `MAX_TOKEN_LIMIT`.
The source's budget guard compares the integer token count against the float
`MAX_TOKEN_LIMIT * 0.9`; it is modelled as `toks * 10 > limit * 9`, which
agrees with the float comparison at the default `MAX_TOKEN_LIMIT = 128000`
(the float product is `115200 + ε` with `0 < ε < 1`, so an integer exceeds
it iff it exceeds `115200`). -/
structure GenEnv where
  search_similar : String → Nat → List String
  generate : String → Int → String → List String → Bool → List String → String
  count_tokens : String → Nat
  max_token_limit : Nat

/-- Python list/string `≤` comparison, lexicographic elementwise
(used for the `(level, number)` sort key: Python compares tuple components
in order, strings by code point, which is `Char`'s linear order). -/
def pyLexLe [LinearOrder α] : List α → List α → Bool
  | [], _ => true
  | _ :: _, [] => false
  | a :: as, b :: bs =>
    if a < b then true else if b < a then false else pyLexLe as bs

/-- The sort key comparison of `generate_full_report`
(`utils/content_generator.py:350-353`): by `level` first, then by `number`
compared *as a string* (lexicographically by code point). -/
def assemblyLeB (a b : TocItem) : Bool :=
  if a.level < b.level then true
  else if b.level < a.level then false
  else pyLexLe a.number.data b.number.data

/-- `assemblyLeB` as a relation. -/
def assemblyLeP (a b : TocItem) : Prop := assemblyLeB a b = true

instance : DecidableRel assemblyLeP := fun a b =>
  inferInstanceAs (Decidable (assemblyLeB a b = true))

theorem pyLexLe_refl [LinearOrder α] : ∀ as : List α, pyLexLe as as = true
  | [] => rfl
  | a :: as => by
    simp only [pyLexLe, lt_irrefl, if_false]
    exact pyLexLe_refl as

theorem pyLexLe_total [LinearOrder α] :
    ∀ as bs : List α, pyLexLe as bs = true ∨ pyLexLe bs as = true
  | [], _ => Or.inl rfl
  | _ :: _, [] => Or.inr rfl
  | a :: as, b :: bs => by
    rcases lt_trichotomy a b with h | h | h
    · exact Or.inl (by simp [pyLexLe, h])
    · subst h
      rcases pyLexLe_total as bs with h' | h'
      · exact Or.inl (by simp [pyLexLe, h'])
      · exact Or.inr (by simp [pyLexLe, h'])
    · exact Or.inr (by simp [pyLexLe, h])

theorem pyLexLe_trans [LinearOrder α] :
    ∀ as bs cs : List α, pyLexLe as bs = true → pyLexLe bs cs = true →
      pyLexLe as cs = true
  | [], _, _, _, _ => rfl
  | a :: as, [], cs, h1, _ => by simp [pyLexLe] at h1
  | a :: as, b :: bs, [], _, h2 => by simp [pyLexLe] at h2
  | a :: as, b :: bs, c :: cs, h1, h2 => by
    simp only [pyLexLe] at h1 h2 ⊢
    rcases lt_trichotomy a b with hab | hab | hab
    · rcases lt_trichotomy b c with hbc | hbc | hbc
      · simp [lt_trans hab hbc]
      · subst hbc
        simp [hab]
      · rcases lt_trichotomy a c with hac | hac | hac
        · simp [hac]
        · subst hac
          rw [if_neg (lt_irrefl a), if_neg (lt_irrefl a)]
          rw [if_neg (lt_asymm hbc), if_pos hbc] at h2
          exact absurd h2 (by simp)
        · rw [if_neg (lt_asymm hbc), if_pos hbc] at h2
          exact absurd h2 (by simp)
    · subst hab
      rcases lt_trichotomy a c with hac | hac | hac
      · simp [hac]
      · subst hac
        rw [if_neg (lt_irrefl a), if_neg (lt_irrefl a)] at h1 h2 ⊢
        exact pyLexLe_trans as bs cs h1 h2
      · rw [if_neg (lt_asymm hac), if_pos hac] at h2
        exact absurd h2 (by simp)
    · rw [if_neg (lt_asymm hab), if_pos hab] at h1
      exact absurd h1 (by simp)

instance : IsTotal TocItem assemblyLeP := by
  constructor
  intro a b
  unfold assemblyLeP assemblyLeB
  rcases lt_trichotomy a.level b.level with h | h | h
  · exact Or.inl (by simp [h])
  · rw [h]
    simp only [lt_irrefl, if_false]
    exact pyLexLe_total a.number.data b.number.data
  · exact Or.inr (by simp [h])

instance : IsTrans TocItem assemblyLeP := by
  constructor
  intro a b c h1 h2
  unfold assemblyLeP assemblyLeB at h1 h2 ⊢
  by_cases hab : a.level < b.level
  · by_cases hbc : b.level < c.level
    · rw [if_pos (lt_trans hab hbc)]
    · by_cases hcb : c.level < b.level
      · rw [if_neg hbc, if_pos hcb] at h2
        exact absurd h2 (by simp)
      · rw [if_pos (show a.level < c.level by omega)]
  · by_cases hba : b.level < a.level
    · rw [if_neg hab, if_pos hba] at h1
      exact absurd h1 (by simp)
    · rw [if_neg hab, if_neg hba] at h1
      by_cases hbc : b.level < c.level
      · rw [if_pos (show a.level < c.level by omega)]
      · by_cases hcb : c.level < b.level
        · rw [if_neg hbc, if_pos hcb] at h2
          exact absurd h2 (by simp)
        · rw [if_neg hbc, if_neg hcb] at h2
          rw [if_neg (show ¬a.level < c.level by omega),
            if_neg (show ¬c.level < a.level by omega)]
          exact pyLexLe_trans _ _ _ h1 h2

/-- The stable sort of the TOC used by `generate_full_report`
(`utils/content_generator.py:350-353`).  Python's `sorted` is a stable sort
by a total preorder; `List.insertionSort` is one too, and any two stable
sorts by the same total preorder agree. -/
def assemblySorted (toc : List TocItem) : List TocItem :=
  List.insertionSort assemblyLeP toc

/-- Python `str.split(sep)` for a multi-character separator: leftmost,
non-overlapping occurrences; empty pieces are kept.  `fuel` bounds the
steps as in `scanPat`. -/
def splitSeqAux (sep : List Char) : Nat → List Char → List Char → List (List Char)
  | 0, cs, acc => [acc.reverse ++ cs]
  | _ + 1, [], acc => [acc.reverse]
  | fuel + 1, c :: cs, acc =>
    if isPrefixChars sep (c :: cs) then
      acc.reverse :: splitSeqAux sep fuel ((c :: cs).drop sep.length) []
    else
      splitSeqAux sep fuel cs (c :: acc)

/-- Python `s.split(sep)` for a nonempty multi-character separator. -/
def pySplitSeq (sep s : String) : List String :=
  (splitSeqAux sep.data (s.data.length + 1) s.data []).map String.mk

/-- The per-node generation of the assembly loop
(`utils/content_generator.py:370-398`): build the retrieval query
`"{number} {title}"`, fall back to the full source when retrieval is empty,
decide whether this node is itself a next-year-plan section (bidirectional
substring match), and call the content transducer — with the
matching-section list passed through only for a next-year-plan node, and
the empty list otherwise. -/
def nodeContent (env : GenEnv) (source : String) (hn : Bool) (ms : List String)
    (prev : List String) (sec : TocItem) : String :=
  let docs := env.search_similar (sec.number ++ " " ++ sec.title) 3
  let relevant := if docs.isEmpty then source else joinSep "\n\n" docs
  let is_next := ms.any (fun m => pyIn m sec.title || pyIn sec.title m)
  env.generate sec.title sec.level relevant prev hn (if is_next then ms else [])

/-- The `for` loop of `generate_full_report`
(`utils/content_generator.py:361-417`), over the remaining sorted nodes.
State: the accumulated report-part list, the rolling `previous_sections`
context, `completed_count`, the running token estimate, and
`total_sections`.  On budget-guard trip it returns the accumulator as-is
with `completed_count` unchanged and `is_complete = false`; after the last
node it returns `completed_count ≥ total_sections`. -/
def assemblyLoop (env : GenEnv) (source : String) (hn : Bool) (ms : List String) :
    List TocItem → List String → List String → Nat → Nat → Nat →
      List String × Nat × Bool
  | [], full_report, _, completed, _, total =>
    (full_report, completed, decide (completed ≥ total))
  | sec :: rest, full_report, prev, completed, toks, total =>
    if toks * 10 > env.max_token_limit * 9 then (full_report, completed, false)
    else
      let content := nodeContent env source hn ms prev sec
      let header := sec.number ++ ". " ++ sec.title
      assemblyLoop env source hn ms rest
        (full_report ++
          [header, String.mk (List.replicate header.length '='), "", content, "", ""])
        (prev ++ [header ++ "\n" ++ content])
        (completed + 1)
        (toks + env.count_tokens (header ++ "\n" ++ content))
        total

/-- The initial rolling context of a resumed run
(`utils/content_generator.py:344-347`): the last (at most) three
triple-newline-delimited blocks of the existing report. -/
def initialPrev (existing_report : String) : List String :=
  let ss := pySplitSeq "\n\n\n" existing_report
  if ss.length ≥ 3 then ss.drop (ss.length - 3) else ss

/-- `generate_full_report` (`utils/content_generator.py:309-417`),
returning `(report_text, completed_count, is_complete)`. -/
def generate_full_report (env : GenEnv) (toc : List TocItem) (source : String)
    (start_index : Nat) (existing_report : String) (hn : Bool)
    (ms : List String) : String × Nat × Bool :=
  let full0 := if existing_report = "" then [] else [existing_report]
  let prev0 := if existing_report = "" then [] else initialPrev existing_report
  let sorted := assemblySorted toc
  let toks0 := if existing_report = "" then 0 else env.count_tokens existing_report
  let res := assemblyLoop env source hn ms (sorted.drop start_index) full0 prev0
    start_index toks0 sorted.length
  (joinSep "\n" res.1, res.2.1, res.2.2)

/-- The `(number, title, content)` triples of the section blocks the loop
emits, mirroring `assemblyLoop`'s per-node computation (used to state what
the report suffix of a resumed run consists of). -/
def emittedBlocks (env : GenEnv) (source : String) (hn : Bool) (ms : List String) :
    List TocItem → List String → Nat → List (String × String × String)
  | [], _, _ => []
  | sec :: rest, prev, toks =>
    if toks * 10 > env.max_token_limit * 9 then []
    else
      let content := nodeContent env source hn ms prev sec
      let header := sec.number ++ ". " ++ sec.title
      (sec.number, sec.title, content) ::
        emittedBlocks env source hn ms rest
          (prev ++ [header ++ "\n" ++ content])
          (toks + env.count_tokens (header ++ "\n" ++ content))

/-- The six report parts of one emitted block, in the loop's layout
(`utils/content_generator.py:400-407`) — the same layout `sectionParts`
gives for `combine_sections`. -/
def blockParts (b : String × String × String) : List String :=
  sectionParts ⟨b.1, b.2.1, b.2.2⟩

/-- One emitted block as flat text (header, underline, blank, body, two
trailing blanks, joined by newlines). -/
def blockText (b : String × String × String) : String :=
  joinSep "\n" (blockParts b)

/-! ## Lemmas about the assembly loop -/

/-- Concatenation of a list of strings. -/
def strConcat : List String → String
  | [] => ""
  | s :: ss => s ++ strConcat ss

/-- The newline-prefixed concatenation of a part list. -/
def nlParts (L : List String) : String := strConcat (L.map (fun p => "\n" ++ p))

theorem joinSep_nl_cons (x : String) :
    ∀ L : List String, joinSep "\n" (x :: L) = x ++ nlParts L := by
  intro L
  induction L generalizing x with
  | nil => exact (String.append_empty x).symm
  | cons y ys ih =>
    show x ++ "\n" ++ joinSep "\n" (y :: ys) = _
    rw [ih y]
    show x ++ "\n" ++ (y ++ nlParts ys) = x ++ (("\n" ++ y) ++ nlParts ys)
    simp [String.append_assoc]

theorem nlParts_append (P Q : List String) :
    nlParts (P ++ Q) = nlParts P ++ nlParts Q := by
  induction P with
  | nil => exact (String.empty_append _).symm
  | cons p ps ih =>
    show ("\n" ++ p) ++ nlParts (ps ++ Q) = (("\n" ++ p) ++ nlParts ps) ++ nlParts Q
    rw [ih]
    simp [String.append_assoc]

theorem nlParts_blockParts (b : String × String × String) :
    nlParts (blockParts b) = "\n" ++ blockText b := by
  obtain ⟨n, t, c⟩ := b
  show nlParts [n ++ ". " ++ t, _, "", c, "", ""] = _
  simp only [nlParts, blockText, blockParts, sectionParts, joinSep, List.map,
    strConcat, String.append_empty, String.empty_append, String.append_assoc]

/-- The report-part list built by `assemblyLoop` is its accumulator followed
by the six-part blocks of the emitted sections. -/
theorem assemblyLoop_parts (env : GenEnv) (source : String) (hn : Bool)
    (ms : List String) :
    ∀ (nodes : List TocItem) (acc prev : List String) (cnt toks total : Nat),
      (assemblyLoop env source hn ms nodes acc prev cnt toks total).1 =
        acc ++ ((emittedBlocks env source hn ms nodes prev toks).map blockParts).flatten := by
  intro nodes
  induction nodes with
  | nil =>
    intro acc prev cnt toks total
    simp [assemblyLoop, emittedBlocks]
  | cons sec rest ih =>
    intro acc prev cnt toks total
    show (if toks * 10 > env.max_token_limit * 9 then (acc, cnt, false) else _).1 = _
    by_cases hg : toks * 10 > env.max_token_limit * 9
    · rw [if_pos hg]
      show acc = _
      rw [emittedBlocks, if_pos hg]
      simp
    · rw [if_neg hg, emittedBlocks, if_neg hg]
      show (assemblyLoop env source hn ms rest (acc ++ _) _ _ _ _).1 = _
      rw [ih]
      simp only [List.map_cons, List.flatten_cons, blockParts, sectionParts]
      rw [List.append_assoc]

/-- The emitted blocks carry the numbers and titles of an initial segment of
the processed node list, in order. -/
theorem emittedBlocks_section_ids (env : GenEnv) (source : String) (hn : Bool)
    (ms : List String) :
    ∀ (nodes : List TocItem) (prev : List String) (toks : Nat),
      (emittedBlocks env source hn ms nodes prev toks).map (fun b => (b.1, b.2.1)) =
        (nodes.take (emittedBlocks env source hn ms nodes prev toks).length).map
          (fun s => (s.number, s.title)) := by
  intro nodes
  induction nodes with
  | nil =>
    intro prev toks
    simp [emittedBlocks]
  | cons sec rest ih =>
    intro prev toks
    rw [emittedBlocks]
    by_cases hg : toks * 10 > env.max_token_limit * 9
    · rw [if_pos hg]
      simp
    · rw [if_neg hg]
      simp only [List.map_cons, List.length_cons, List.take_succ_cons]
      rw [ih]

theorem nlParts_flatten_blocks :
    ∀ blocks : List (String × String × String),
      nlParts ((blocks.map blockParts).flatten) =
        strConcat (blocks.map (fun b => "\n" ++ blockText b)) := by
  intro blocks
  induction blocks with
  | nil => rfl
  | cons b bs ih =>
    simp only [List.map_cons, List.flatten_cons]
    rw [nlParts_append, nlParts_blockParts, ih]
    rfl

/-- The budget guard: with the running token estimate over 90% of the
budget and at least one node remaining, the loop returns immediately with
the accumulator and count unchanged and `is_complete = false`. -/
theorem assemblyLoop_guard (env : GenEnv) (source : String) (hn : Bool)
    (ms : List String) (sec : TocItem) (rest : List TocItem)
    (acc prev : List String) (cnt toks total : Nat)
    (hg : toks * 10 > env.max_token_limit * 9) :
    assemblyLoop env source hn ms (sec :: rest) acc prev cnt toks total =
      (acc, cnt, false) := by
  show (if toks * 10 > env.max_token_limit * 9 then (acc, cnt, false) else _) = _
  rw [if_pos hg]

/-- Unfolding of `generate_full_report` for a nonempty existing report. -/
theorem generate_full_report_of_ne (env : GenEnv) (toc : List TocItem)
    (source : String) (start_index : Nat) (existing_report : String)
    (hn : Bool) (ms : List String) (h : existing_report ≠ "") :
    generate_full_report env toc source start_index existing_report hn ms =
      (joinSep "\n" ((assemblyLoop env source hn ms
          ((assemblySorted toc).drop start_index) [existing_report]
          (initialPrev existing_report) start_index
          (env.count_tokens existing_report) (assemblySorted toc).length).1),
       (assemblyLoop env source hn ms ((assemblySorted toc).drop start_index)
          [existing_report] (initialPrev existing_report) start_index
          (env.count_tokens existing_report) (assemblySorted toc).length).2.1,
       (assemblyLoop env source hn ms ((assemblySorted toc).drop start_index)
          [existing_report] (initialPrev existing_report) start_index
          (env.count_tokens existing_report) (assemblySorted toc).length).2.2) := by
  unfold generate_full_report
  rw [if_neg h, if_neg h, if_neg h]

/-! ## Claims C4, C5, C6 -/

/-- **C4.** For a nonempty `existing_report`, the report returned by
`generate_full_report` is `existing_report` verbatim followed by exactly the
newly generated section blocks (each a header, an `=`-underline, a blank
line, the generated body, and two blank lines), and those blocks carry the
numbers and titles of an initial segment of the remaining sorted nodes in
order — already-emitted text is never mutated, reordered or duplicated. -/
theorem C4_resume_append_only (env : GenEnv) (toc : List TocItem)
    (source : String) (start_index : Nat) (existing_report : String)
    (hn : Bool) (ms : List String) (h : existing_report ≠ "") :
    (generate_full_report env toc source start_index existing_report hn ms).1 =
      existing_report ++
        strConcat ((emittedBlocks env source hn ms
            ((assemblySorted toc).drop start_index) (initialPrev existing_report)
            (env.count_tokens existing_report)).map
          (fun b => "\n" ++ blockText b)) ∧
    (emittedBlocks env source hn ms ((assemblySorted toc).drop start_index)
        (initialPrev existing_report) (env.count_tokens existing_report)).map
      (fun b => (b.1, b.2.1)) =
      (((assemblySorted toc).drop start_index).take
          (emittedBlocks env source hn ms ((assemblySorted toc).drop start_index)
            (initialPrev existing_report)
            (env.count_tokens existing_report)).length).map
        (fun s => (s.number, s.title)) := by
  refine ⟨?_, emittedBlocks_section_ids env source hn ms _ _ _⟩
  have e1 := congrArg Prod.fst
    (generate_full_report_of_ne env toc source start_index existing_report hn ms h)
  rw [e1, assemblyLoop_parts, List.singleton_append, joinSep_nl_cons,
    nlParts_flatten_blocks]

/-- A concrete deterministic collaborator environment for witnesses. -/
def demoEnv : GenEnv where
  search_similar := fun _ _ => []
  generate := fun t _ _ _ _ _ => "* " ++ t ++ " 내용임."
  count_tokens := fun s => s.length / 4
  max_token_limit := 128000

/-- A concrete two-node TOC for witnesses. -/
def demoToc : List TocItem := [⟨"1", "개요", 1⟩, ⟨"2", "다음년도 계획", 1⟩]

/-- Witness for C4 at a concrete resumed run. -/
theorem C4_resume_append_only_witness :
    (generate_full_report demoEnv demoToc "원문" 1 "기존 보고서" false []).1 =
      "기존 보고서" ++
        strConcat ((emittedBlocks demoEnv "원문" false []
            ((assemblySorted demoToc).drop 1) (initialPrev "기존 보고서")
            (demoEnv.count_tokens "기존 보고서")).map
          (fun b => "\n" ++ blockText b)) :=
  (C4_resume_append_only demoEnv demoToc "원문" 1 "기존 보고서" false []
    (by decide)).1

/-- **C5.** `generate_full_report` processes the TOC in ascending order of
the key `(level, number-as-string)`: the sorted list it iterates over is
pairwise ordered by that key (so every level-1 node precedes every level-2
node) and is a permutation of the input; the blocks it emits follow that
sorted order; and on equal levels the comparison is string-lexicographic,
so number `"10"` is processed before number `"2"`. -/
theorem C5_assembly_sort_order (toc : List TocItem) :
    List.Pairwise assemblyLeP (assemblySorted toc) ∧
    (assemblySorted toc).Perm toc ∧
    (∀ (env : GenEnv) (source : String) (hn : Bool) (ms prev : List String)
        (toks : Nat),
      (emittedBlocks env source hn ms (assemblySorted toc) prev toks).map
          (fun b => (b.1, b.2.1)) =
        ((assemblySorted toc).take
            (emittedBlocks env source hn ms (assemblySorted toc) prev toks).length).map
          (fun s => (s.number, s.title))) ∧
    (assemblySorted [⟨"2", "나", 1⟩, ⟨"1-1", "다", 2⟩, ⟨"10", "가", 1⟩]).map
        TocItem.number = ["10", "2", "1-1"] := by
  refine ⟨List.sorted_insertionSort assemblyLeP toc,
    List.perm_insertionSort assemblyLeP toc,
    fun env source hn ms prev toks =>
      emittedBlocks_section_ids env source hn ms _ prev toks, ?_⟩
  decide

/-- **C6.** Whenever the running token estimate exceeds 90% of the
configured budget before a node is processed, the loop stops immediately:
the accumulator is returned as already built (no header or body for the
triggering node), the triggering node is not counted, and the result flag
is `false` — and likewise for a whole `generate_full_report` call whose
existing report already exceeds the threshold.  Exhaustion is a return
value, never an exception (the model is a total function). -/
theorem C6_budget_guard (env : GenEnv) (source : String) (hn : Bool)
    (ms : List String) (toc : List TocItem) (start_index : Nat)
    (existing_report : String) :
    (∀ (sec : TocItem) (rest : List TocItem) (acc prev : List String)
        (cnt toks total : Nat),
      toks * 10 > env.max_token_limit * 9 →
        assemblyLoop env source hn ms (sec :: rest) acc prev cnt toks total =
          (acc, cnt, false)) ∧
    (existing_report ≠ "" →
      env.count_tokens existing_report * 10 > env.max_token_limit * 9 →
      start_index < toc.length →
        generate_full_report env toc source start_index existing_report hn ms =
          (existing_report, start_index, false)) := by
  constructor
  · intro sec rest acc prev cnt toks total hg
    exact assemblyLoop_guard env source hn ms sec rest acc prev cnt toks total hg
  · intro h1 h2 h3
    have hlen : (assemblySorted toc).length = toc.length :=
      (List.perm_insertionSort assemblyLeP toc).length_eq
    have hne : (assemblySorted toc).drop start_index ≠ [] := by
      rw [Ne, List.drop_eq_nil_iff]
      omega
    obtain ⟨sec, rest, heq⟩ := List.exists_cons_of_ne_nil hne
    rw [generate_full_report_of_ne env toc source start_index existing_report hn ms h1,
      heq,
      assemblyLoop_guard env source hn ms sec rest [existing_report]
        (initialPrev existing_report) start_index
        (env.count_tokens existing_report) (assemblySorted toc).length h2]
    rfl

/-- A collaborator environment whose token counter always reports a count
over the default budget's 90% threshold. -/
def overBudgetEnv : GenEnv where
  search_similar := fun _ _ => []
  generate := fun _ _ _ _ _ _ => ""
  count_tokens := fun _ => 200000
  max_token_limit := 128000

/-- Witness for C6: resuming over budget returns the existing report,
the unchanged count, and `is_complete = false`. -/
theorem C6_budget_guard_witness :
    generate_full_report overBudgetEnv [⟨"1", "개요", 1⟩] "원문" 0 "기존" false [] =
      ("기존", 0, false) :=
  (C6_budget_guard overBudgetEnv "원문" false [] [⟨"1", "개요", 1⟩] 0 "기존").2
    (by decide) (by decide) (by decide)

/-! ## `app.py`: TOC hierarchy sort and renumbering -/

/-- Python `int(s)` on a string: strip whitespace, optional sign, then a
nonempty digit run.  (Python also accepts underscore digit grouping, which
no TOC number uses; any failure makes `number_to_list` fall back to `[0]`
either way.) -/
def pyIntOfChars (cs : List Char) : Option Int :=
  match pyStrip cs with
  | '+' :: ds =>
    if ds.isEmpty then none
    else if ds.all isAsciiDigit then some (digitsVal ds) else none
  | '-' :: ds =>
    if ds.isEmpty then none
    else if ds.all isAsciiDigit then some (-(digitsVal ds : Int)) else none
  | ds =>
    if ds.isEmpty then none
    else if ds.all isAsciiDigit then some (digitsVal ds) else none

/-- `number_to_list` (`app.py:134-138`): the number split on `-` with each
segment parsed as an int; any failure yields `[0]`. -/
def number_to_list (number_str : String) : List Int :=
  match (splitOnChar '-' number_str.data).mapM pyIntOfChars with
  | some l => l
  | none => [0]

/-- The sort key comparison of `sort_toc_by_hierarchy` (`app.py:120-143`):
Python list comparison of the dash-split integer keys. -/
def hierLeB (a b : TocItem) : Bool :=
  pyLexLe (number_to_list a.number) (number_to_list b.number)

/-- `hierLeB` as a relation. -/
def hierLeP (a b : TocItem) : Prop := hierLeB a b = true

instance : DecidableRel hierLeP := fun a b =>
  inferInstanceAs (Decidable (hierLeB a b = true))

instance : IsTotal TocItem hierLeP := by
  constructor
  intro a b
  exact pyLexLe_total (number_to_list a.number) (number_to_list b.number)

instance : IsTrans TocItem hierLeP := by
  constructor
  intro a b c h1 h2
  exact pyLexLe_trans _ _ _ h1 h2

/-- `sort_toc_by_hierarchy` (`app.py:120-143`).  Python's `sorted` is a
stable sort by this total preorder; `List.insertionSort` is the same stable
sort. -/
def sort_toc_by_hierarchy (toc : List TocItem) : List TocItem :=
  if toc.isEmpty then [] else List.insertionSort hierLeP toc

/-- The number of the nearest preceding node of the given level in the
already-renumbered output (the reversed scan of `app.py:180-184` and
`197-202`). -/
def lastNumberOfLevel (lv : Int) (renumbered : List TocItem) : Option String :=
  (renumbered.reverse.find? (fun s => decide (s.level = lv))).map TocItem.number

/-- Association-list lookup (model of a Python dict read). -/
def dictGet : List (String × Nat) → String → Option Nat
  | [], _ => none
  | (k', v) :: rest, k => if k' = k then some v else dictGet rest k

/-- Association-list update (model of a Python dict write). -/
def dictSet : List (String × Nat) → String → Nat → List (String × Nat)
  | [], k, v => [(k, v)]
  | (k', v') :: rest, k, v =>
    if k' = k then (k, v) :: rest else (k', v') :: dictSet rest k v

/-- The walk state of `renumber_toc_by_hierarchy` (`app.py:163-166`):
the renumbered output so far, the level-1 counter, and the per-parent
level-2 and level-3 counters. -/
structure RenumberState where
  renumbered : List TocItem
  l1 : Nat
  l2c : List (String × Nat)
  l3c : List (String × Nat)

/-- One iteration of the renumbering walk (`app.py:168-214`).  The
"initialize to 0 if absent, then increment" dict idiom is
`(dictGet …).getD 0 + 1` followed by the write.  For a level outside 1–3
the source leaves `new_number` unassigned (Python would reuse a stale
variable or raise `NameError`); modelled as keeping the old number — the
claims only exercise levels 1–3. -/
def renumberStep (st : RenumberState) (sec : TocItem) : RenumberState :=
  if sec.level = 1 then
    let n1 := st.l1 + 1
    let new_number := toString n1
    { renumbered := st.renumbered ++ [{ sec with number := new_number }]
      l1 := n1
      l2c := dictSet st.l2c new_number 0
      l3c := st.l3c }
  else if sec.level = 2 then
    let parent :=
      match lastNumberOfLevel 1 st.renumbered with
      | some p => p
      | none => toString st.l1
    let c := (dictGet st.l2c parent).getD 0 + 1
    let new_number := parent ++ "-" ++ toString c
    { renumbered := st.renumbered ++ [{ sec with number := new_number }]
      l1 := st.l1
      l2c := dictSet st.l2c parent c
      l3c := dictSet st.l3c new_number 0 }
  else if sec.level = 3 then
    match lastNumberOfLevel 2 st.renumbered with
    | none => { st with renumbered := st.renumbered ++ [sec] }
    | some parent =>
      let c := (dictGet st.l3c parent).getD 0 + 1
      let new_number := parent ++ "-" ++ toString c
      { renumbered := st.renumbered ++ [{ sec with number := new_number }]
        l1 := st.l1
        l2c := st.l2c
        l3c := dictSet st.l3c parent c }
  else
    { st with renumbered := st.renumbered ++ [sec] }

/-- The counter walk of `renumber_toc_by_hierarchy` over an already-sorted
list (`app.py:162-216`). -/
def renumberWalk (toc : List TocItem) : List TocItem :=
  (toc.foldl renumberStep ⟨[], 0, [], []⟩).renumbered

/-- `renumber_toc_by_hierarchy` (`app.py:146-216`): sort hierarchically,
then reassign numbers by the counter walk. -/
def renumber_toc_by_hierarchy (toc : List TocItem) : List TocItem :=
  if toc.isEmpty then [] else renumberWalk (sort_toc_by_hierarchy toc)

/-- Modelled from the spec (§3 "Lifecycle", §4.2 `renumber_by_hierarchy`):
a TOC is in *canonical hierarchical order* when it is already ordered by the
hierarchy sort key and every node's `number` is exactly what the counter
walk (level-1 counter; per-parent level-2/level-3 counters keyed off the
nearest preceding ancestor of the right level) assigns in that order. -/
def canonicalHierarchicalOrder (toc : List TocItem) : Prop :=
  List.Pairwise hierLeP toc ∧ renumberWalk toc = toc

/-! ## Claims C7, C8 -/

/-- **C7.** Renumbering a TOC that is already in canonical hierarchical
order is a no-op: the hierarchy sort leaves it unchanged (it is already
sorted) and the counter walk reassigns every node its own number, so every
node keeps all its fields. -/
theorem C7_renumber_fixed_point (toc : List TocItem)
    (h : canonicalHierarchicalOrder toc) :
    renumber_toc_by_hierarchy toc = toc := by
  obtain ⟨hsort, hwalk⟩ := h
  unfold renumber_toc_by_hierarchy
  by_cases he : toc.isEmpty
  · rw [if_pos he]
    exact (List.isEmpty_iff.mp he).symm
  · rw [if_neg he]
    unfold sort_toc_by_hierarchy
    rw [if_neg he, List.Sorted.insertionSort_eq hsort]
    exact hwalk

/-- The claim's concrete input `[("1",1),("1-1",2),("1-2",2),("2",1)]`. -/
def canonicalDemo : List TocItem :=
  [⟨"1", "서론", 1⟩, ⟨"1-1", "배경", 2⟩, ⟨"1-2", "목적", 2⟩, ⟨"2", "본론", 1⟩]

/-- Witness for C7 at the claim's input: renumbering it changes nothing. -/
theorem C7_renumber_fixed_point_witness :
    renumber_toc_by_hierarchy canonicalDemo = canonicalDemo :=
  C7_renumber_fixed_point canonicalDemo ⟨by decide, by decide⟩

theorem key_ne_of_not_hierLe {x y : TocItem} (h : ¬ hierLeP x y) :
    number_to_list y.number ≠ number_to_list x.number := by
  intro hk
  apply h
  show pyLexLe (number_to_list x.number) (number_to_list y.number) = true
  rw [hk]
  exact pyLexLe_refl _

theorem filter_orderedInsert_of_ne (x : TocItem) (k : List Int)
    (hx : ¬ number_to_list x.number = k) :
    ∀ l, (List.orderedInsert hierLeP x l).filter
        (fun s => decide (number_to_list s.number = k)) =
      l.filter (fun s => decide (number_to_list s.number = k)) := by
  intro l
  induction l with
  | nil => simp [List.orderedInsert, hx]
  | cons y ys ih =>
    rw [List.orderedInsert]
    by_cases hr : hierLeP x y
    · rw [if_pos hr]
      simp [hx]
    · rw [if_neg hr]
      simp only [List.filter_cons, ih]

theorem filter_orderedInsert_of_eq (x : TocItem) (k : List Int)
    (hx : number_to_list x.number = k) :
    ∀ l, (List.orderedInsert hierLeP x l).filter
        (fun s => decide (number_to_list s.number = k)) =
      x :: l.filter (fun s => decide (number_to_list s.number = k)) := by
  intro l
  induction l with
  | nil => simp [List.orderedInsert, hx]
  | cons y ys ih =>
    rw [List.orderedInsert]
    by_cases hr : hierLeP x y
    · rw [if_pos hr]
      simp [hx]
    · rw [if_neg hr]
      have hy : ¬ number_to_list y.number = k := by
        intro hk
        exact key_ne_of_not_hierLe hr (hk.trans hx.symm)
      simp only [List.filter_cons, ih]
      simp [hy]

theorem filter_insertionSort_key (k : List Int) :
    ∀ l : List TocItem,
      (List.insertionSort hierLeP l).filter
          (fun s => decide (number_to_list s.number = k)) =
        l.filter (fun s => decide (number_to_list s.number = k)) := by
  intro l
  induction l with
  | nil => rfl
  | cons x xs ih =>
    rw [List.insertionSort]
    by_cases hx : number_to_list x.number = k
    · rw [filter_orderedInsert_of_eq x k hx, ih]
      simp [hx]
    · rw [filter_orderedInsert_of_ne x k hx, ih]
      simp [hx]

/-- **C8.** `sort_toc_by_hierarchy` is a stable sort by the dash-split
integer key: the output is pairwise ordered by the numeric per-segment
comparison, is a permutation of the input, and preserves the relative order
of equal-keyed nodes (the subsequence with any given key is unchanged —
the standard characterization of stability); the numbers
`["2","1-2","1-1","10"]` sort to `["1-1","1-2","2","10"]`; and a malformed
number sorts as `[0]` (the key function is total — nothing raises). -/
theorem C8_hierarchy_sort (toc : List TocItem) (k : List Int) :
    List.Pairwise hierLeP (sort_toc_by_hierarchy toc) ∧
    (sort_toc_by_hierarchy toc).Perm toc ∧
    (sort_toc_by_hierarchy toc).filter
        (fun s => decide (number_to_list s.number = k)) =
      toc.filter (fun s => decide (number_to_list s.number = k)) ∧
    (sort_toc_by_hierarchy
        [⟨"2", "나", 1⟩, ⟨"1-2", "다", 2⟩, ⟨"1-1", "라", 2⟩, ⟨"10", "가", 1⟩]).map
        TocItem.number = ["1-1", "1-2", "2", "10"] ∧
    number_to_list "abc" = [0] ∧ number_to_list "1-2-3" = [1, 2, 3] := by
  refine ⟨?_, ?_, ?_, by decide, by decide, by decide⟩
  · unfold sort_toc_by_hierarchy
    by_cases he : toc.isEmpty
    · rw [if_pos he]
      exact List.Pairwise.nil
    · rw [if_neg he]
      exact List.sorted_insertionSort hierLeP toc
  · unfold sort_toc_by_hierarchy
    by_cases he : toc.isEmpty
    · rw [if_pos he, List.isEmpty_iff.mp he]
    · rw [if_neg he]
      exact List.perm_insertionSort hierLeP toc
  · unfold sort_toc_by_hierarchy
    by_cases he : toc.isEmpty
    · rw [if_pos he, List.isEmpty_iff.mp he]
    · rw [if_neg he]
      exact filter_insertionSort_key k toc
